import Mathlib

/-!
Verification of the payload normalization layer of the nrql repository
(src/payload.go), as a shallow embedding in Lean 4.

Modelling conventions:
* A well-formed JSON document is represented by the inductive `JValue`
  (numbers are carried as `Int`; no arithmetic is performed on them, they
  are opaque scalars passed through the normalizer).
* A Go `map[string]interface\x7b\x7d` produced by `encoding/json` is
  represented as an association list with distinct keys, built by
  `decodeMap` (later duplicate keys overwrite earlier ones, as in Go).
* A nil slice is distinguished from an empty slice by `Option`
  (`none` = nil) exactly where the Go code tests `!= nil`.
* `log.Fatal` and runtime panics terminate the process; computations that
  can do so return `GoResult`, whose `fatal` constructor marks the
  unrecoverable exit.
* Go map iteration order is randomized; every operation that ranges over
  the first event map takes an explicit `order : List String` argument, a
  permutation of that map's keys, standing for the iteration order chosen
  by the runtime for that particular range statement.
* Methods with a pointer receiver (`PayloadBasic.Columns`) are embedded as
  state-passing functions returning the updated receiver; methods with a
  value receiver (`PayloadBasic.Rows`) return the receiver unchanged,
  since in Go they mutate only a copy.
-/

inductive JValue where
  | null : JValue
  | bool (b : Bool) : JValue
  | num (n : Int) : JValue
  | str (s : String) : JValue
  | arr (elems : List JValue) : JValue
  | obj (fields : List (String × JValue)) : JValue
deriving Repr

/-- Field lookup in a JSON object: `encoding/json` processes keys in order
and a later duplicate key overwrites an earlier one, so the last binding
wins. -/
def jLookup (fields : List (String × JValue)) (key : String) : Option JValue :=
  fields.reverse.lookup key

/-- One overwriting insertion into the association list representing a Go
map. -/
def insertEntry (m : List (String × JValue)) (k : String) (v : JValue) :
    List (String × JValue) :=
  if m.any (fun p => p.1 = k) then
    m.map (fun p => if p.1 = k then (k, v) else p)
  else
    m ++ [(k, v)]

/-- Decoding a JSON object into a Go `map[string]interface\x7b\x7d`: every
key is assigned in order, later duplicates overwriting earlier ones. The
result has distinct keys. -/
def decodeMap (fields : List (String × JValue)) : List (String × JValue) :=
  fields.foldl (fun m kv => insertEntry m kv.1 kv.2) []

/-- `json.Unmarshal` of one element of a `[]map[string]interface\x7b\x7d`:
an object becomes a map, `null` leaves the nil map (length 0), anything
else is a type error. -/
def decodeCell (v : JValue) : Except String (List (String × JValue)) :=
  match v with
  | .obj fields => .ok (decodeMap fields)
  | .null => .ok []
  | _ => .error "json: cannot unmarshal value into Go map"

def decodeCells (vs : List JValue) :
    Except String (List (List (String × JValue))) :=
  match vs with
  | [] => .ok []
  | v :: rest => do
    let c ← decodeCell v
    let cs ← decodeCells rest
    .ok (c :: cs)

/-- `json.Unmarshal` into a Go `string` field: strings decode, `null`
leaves the zero value, anything else is a type error. -/
def decodeStringValue (v : JValue) : Except String String :=
  match v with
  | .str s => .ok s
  | .null => .ok ""
  | _ => .error "json: cannot unmarshal value into Go string"

/-- Read an optional string field of a JSON object: an absent field leaves
the zero value. -/
def stringField (fields : List (String × JValue)) (key : String) :
    Except String String :=
  match jLookup fields key with
  | none => .ok ""
  | some v => decodeStringValue v

def decodeStrings (vs : List JValue) : Except String (List String) :=
  match vs with
  | [] => .ok []
  | v :: rest => do
    let s ← decodeStringValue v
    let ss ← decodeStrings rest
    .ok (s :: ss)

/-- Outcome of a Go computation that may terminate the process (via
`log.Fatal` or a panic). -/
inductive GoResult (α : Type) where
  | ok (val : α) : GoResult α
  | fatal (msg : String) : GoResult α
deriving Repr

/-- The basic (no-aggregations, no-facets) payload type of src/payload.go.
`cols` is the column cache (nil after decoding), `events` is
`Results[0].Events` (the `Results` field is a Go array of length one, so
it is represented by its single element; `none` = nil slice), and
`metadataColumns` is `Metadata.Contents[0].Columns` (`none` = nil slice,
as for a SELECT * query). -/
structure PayloadBasic where
  cols : Option (List String)
  events : Option (List (List (String × JValue)))
  metadataColumns : Option (List String)
deriving Repr

/-- One entry of `Metadata.Contents` for the aggregation payload (also
reused for the facet payload, whose metadata entries have the same
fields). `aliasName` stands for the Go field `Alias` (renamed because
alias is a reserved word here), `attr` for the Go field `Attribute`, and
`contentsFunction` / `contentsAttr` for the nested `Contents` struct that
is populated only when `Function == "alias"`. -/
structure AggContent where
  function : String
  aliasName : String
  contentsFunction : String
  contentsAttr : String
  attr : String
deriving Repr, DecidableEq

/-- The aggregation payload type of src/payload.go. `results` is the
top-level `Results` slice (`none` = nil, which the discriminator tests);
`contents` is `Metadata.Contents`. -/
structure PayloadAggregation where
  results : Option (List (List (String × JValue)))
  contents : List AggContent
deriving Repr

/-- One facet group: a name and its list of wrapped aggregate cells. -/
structure FacetGroup where
  name : String
  results : List (List (String × JValue))
deriving Repr

/-- The facet payload type of src/payload.go. `facetName` is
`Metadata.Facet`; `contents` is `Metadata.Contents.Contents`;
`totalResult` and `unknownGroup` carry the same-named wire fields (decoded
but unused by Columns and Rows, exactly as in the Go code). -/
structure PayloadFacet where
  facets : List FacetGroup
  totalResult : List (List (String × JValue))
  unknownGroup : List (List (String × JValue))
  facetName : String
  contents : List AggContent
deriving Repr

/-- Decode a `[]map[string]interface\x7b\x7d` field whose nil-ness is
observable: `null` and an absent field leave the nil slice. -/
def decodeCellSliceOpt (v : JValue) :
    Except String (Option (List (List (String × JValue)))) :=
  match v with
  | .null => .ok none
  | .arr es => do
    let cs ← decodeCells es
    .ok (some cs)
  | _ => .error "json: cannot unmarshal value into Go slice of maps"

/-- `json.Unmarshal(data, &basic)` for the `PayloadBasic` shape. A JSON
`null` at any level leaves the corresponding zero value untouched; the
`Results` array of length one takes the first element of the JSON array
and ignores the rest; unknown object keys are ignored. -/
def decodeBasic (v : JValue) : Except String PayloadBasic := do
  match v with
  | .null => .ok { cols := none, events := none, metadataColumns := none }
  | .obj fields => do
    let events ← match jLookup fields "results" with
      | none => pure none
      | some .null => pure none
      | some (.arr rs) =>
        match rs with
        | [] => pure none
        | r :: _ =>
          match r with
          | .null => pure none
          | .obj rf =>
            (match jLookup rf "events" with
            | none => pure none
            | some ev => decodeCellSliceOpt ev)
          | _ => Except.error "json: cannot unmarshal value into Go struct"
      | some _ => Except.error "json: cannot unmarshal value into Go array"
    let metadataColumns ← match jLookup fields "metadata" with
      | none => pure none
      | some .null => pure none
      | some (.obj mf) =>
        (match jLookup mf "contents" with
        | none => pure none
        | some .null => pure none
        | some (.arr cs) =>
          match cs with
          | [] => pure none
          | c :: _ =>
            match c with
            | .null => pure none
            | .obj cf =>
              (match jLookup cf "columns" with
              | none => pure none
              | some .null => pure none
              | some (.arr xs) => do
                let ss ← decodeStrings xs
                pure (some ss)
              | some _ =>
                Except.error "json: cannot unmarshal value into Go slice of strings")
            | _ => Except.error "json: cannot unmarshal value into Go struct"
        | some _ => Except.error "json: cannot unmarshal value into Go array")
      | some _ => Except.error "json: cannot unmarshal value into Go struct"
    .ok { cols := none, events := events, metadataColumns := metadataColumns }
  | _ => .error "json: cannot unmarshal value into Go struct PayloadBasic"

/-- Decode one entry of `Metadata.Contents` of the aggregation payload (or
of `Metadata.Contents.Contents` of the facet payload): an object whose
string fields `function`, `alias` and `attribute` decode as Go strings and
whose tagless nested struct matches the key `contents`
case-insensitively. -/
def decodeAggContent (v : JValue) : Except String AggContent := do
  match v with
  | .null =>
    .ok { function := "", aliasName := "", contentsFunction := "",
          contentsAttr := "", attr := "" }
  | .obj cf => do
    let function ← stringField cf "function"
    let aliasName ← stringField cf "alias"
    let attr ← stringField cf "attribute"
    match jLookup cf "contents" with
    | none =>
      .ok { function := function, aliasName := aliasName,
            contentsFunction := "", contentsAttr := "", attr := attr }
    | some .null =>
      .ok { function := function, aliasName := aliasName,
            contentsFunction := "", contentsAttr := "", attr := attr }
    | some (.obj nf) => do
      let cfun ← stringField nf "function"
      let cattr ← stringField nf "attribute"
      .ok { function := function, aliasName := aliasName,
            contentsFunction := cfun, contentsAttr := cattr, attr := attr }
    | some _ => .error "json: cannot unmarshal value into Go struct"
  | _ => .error "json: cannot unmarshal value into Go struct"

def decodeAggContents (vs : List JValue) : Except String (List AggContent) :=
  match vs with
  | [] => .ok []
  | v :: rest => do
    let c ← decodeAggContent v
    let cs ← decodeAggContents rest
    .ok (c :: cs)

/-- `json.Unmarshal(data, &aggregation)` for the `PayloadAggregation`
shape. -/
def decodeAggregation (v : JValue) : Except String PayloadAggregation := do
  match v with
  | .null => .ok { results := none, contents := [] }
  | .obj fields => do
    let results ← match jLookup fields "results" with
      | none => pure none
      | some rv => decodeCellSliceOpt rv
    let contents ← match jLookup fields "metadata" with
      | none => pure []
      | some .null => pure []
      | some (.obj mf) =>
        (match jLookup mf "contents" with
        | none => pure []
        | some .null => pure []
        | some (.arr cs) => decodeAggContents cs
        | some _ =>
          Except.error "json: cannot unmarshal value into Go slice of structs")
      | some _ => Except.error "json: cannot unmarshal value into Go struct"
    .ok { results := results, contents := contents }
  | _ => .error "json: cannot unmarshal value into Go struct PayloadAggregation"

/-- Decode one facet group of the facet payload. -/
def decodeFacetGroup (v : JValue) : Except String FacetGroup := do
  match v with
  | .null => .ok { name := "", results := [] }
  | .obj gf => do
    let name ← stringField gf "name"
    let results ← match jLookup gf "results" with
      | none => pure []
      | some .null => pure []
      | some (.arr es) => decodeCells es
      | some _ =>
        Except.error "json: cannot unmarshal value into Go slice of maps"
    .ok { name := name, results := results }
  | _ => .error "json: cannot unmarshal value into Go struct"

def decodeFacetGroups (vs : List JValue) : Except String (List FacetGroup) :=
  match vs with
  | [] => .ok []
  | v :: rest => do
    let g ← decodeFacetGroup v
    let gs ← decodeFacetGroups rest
    .ok (g :: gs)

/-- Decode a struct of the form `struct (Results []map...)` as used by the
`totalResult` and `unknownGroup` fields of the facet payload. -/
def decodeResultsWrapper (v : JValue) :
    Except String (List (List (String × JValue))) := do
  match v with
  | .null => .ok []
  | .obj tf =>
    (match jLookup tf "results" with
    | none => .ok []
    | some .null => .ok []
    | some (.arr es) => decodeCells es
    | some _ => .error "json: cannot unmarshal value into Go slice of maps")
  | _ => .error "json: cannot unmarshal value into Go struct"

/-- `json.Unmarshal(data, &facet)` for the `PayloadFacet` shape. -/
def decodeFacet (v : JValue) : Except String PayloadFacet := do
  match v with
  | .null =>
    .ok { facets := [], totalResult := [], unknownGroup := [],
          facetName := "", contents := [] }
  | .obj fields => do
    let facets ← match jLookup fields "facets" with
      | none => pure []
      | some .null => pure []
      | some (.arr gs) => decodeFacetGroups gs
      | some _ =>
        Except.error "json: cannot unmarshal value into Go slice of structs"
    let totalResult ← match jLookup fields "totalResult" with
      | none => pure []
      | some tv => decodeResultsWrapper tv
    let unknownGroup ← match jLookup fields "unknownGroup" with
      | none => pure []
      | some uv => decodeResultsWrapper uv
    let (facetName, contents) ← match jLookup fields "metadata" with
      | none => pure ("", [])
      | some .null => pure ("", [])
      | some (.obj mf) => do
        let facetName ← stringField mf "facet"
        let contents ← match jLookup mf "contents" with
          | none => pure []
          | some .null => pure []
          | some (.obj cc) =>
            (match jLookup cc "contents" with
            | none => pure []
            | some .null => pure []
            | some (.arr cs) => decodeAggContents cs
            | some _ =>
              Except.error "json: cannot unmarshal value into Go slice of structs")
          | some _ => Except.error "json: cannot unmarshal value into Go struct"
        pure (facetName, contents)
      | some _ => Except.error "json: cannot unmarshal value into Go struct"
    .ok { facets := facets, totalResult := totalResult,
          unknownGroup := unknownGroup, facetName := facetName,
          contents := contents }
  | _ => .error "json: cannot unmarshal value into Go struct PayloadFacet"

/-- The diagnostic printed by `log.Fatal` in `parseCell` when a cell does
not hold exactly one entry. -/
def fatalCellMsg : String := "WARNING: multiple key/value pairs found in cell"

/-- The message of the runtime panic raised by an out-of-range slice
index. -/
def indexOutOfRangeMsg : String := "runtime error: index out of range"

/-- `parseCell` of src/payload.go: a cell is a single-entry map; its one
value is returned and the key is discarded. If the map does not hold
exactly one entry the process is terminated by `log.Fatal`. -/
def parseCell (cell : List (String × JValue)) : GoResult JValue :=
  if cell.length ≠ 1 then
    .fatal fatalCellMsg
  else
    match cell with
    | (_, v) :: _ => .ok v
    | [] => .fatal "Unreachable"

/-- `parseRow` of src/payload.go: unwrap every cell of the row in order. -/
def parseRow (row : List (List (String × JValue))) : GoResult (List JValue) :=
  match row with
  | [] => .ok []
  | cell :: rest =>
    match parseCell cell with
    | .fatal m => .fatal m
    | .ok v =>
      match parseRow rest with
      | .fatal m => .fatal m
      | .ok vs => .ok (v :: vs)

/-- `event[column]` on a Go map: a missing key yields the zero
`interface\x7b\x7d`, i.e. nil, modelled as the JSON null. -/
def lookupGo (m : List (String × JValue)) (k : String) : JValue :=
  match m.lookup k with
  | some v => v
  | none => JValue.null

/-- `(*PayloadBasic).Columns` of src/payload.go, a pointer-receiver method
embedded as a state-passing function. `order` is the iteration order the
runtime picks when the method ranges over the keys of the first event map
(meaningful only when that range statement is reached; the theorems
constrain it to be a permutation of those keys). Returns the column list
and the updated receiver. The source guard `len(p.Results[0].Events) < 0`
is kept verbatim (over Go ints, hence the cast); when the events slice is
empty the subsequent access `p.Results[0].Events[0]` panics. -/
def PayloadBasic.ColumnsSt (p : PayloadBasic) (order : List String) :
    GoResult (List String × PayloadBasic) :=
  match p.cols with
  | some cs => .ok (cs, p)
  | none =>
    match p.metadataColumns with
    | some cs => .ok (cs, { p with cols := some cs })
    | none =>
      if ((p.events.getD []).length : Int) < 0 then
        .ok ([], p)
      else
        match p.events.getD [] with
        | [] => .fatal indexOutOfRangeMsg
        | _ :: _ => .ok (order, { p with cols := some order })

/-- `PayloadBasic.Rows` of src/payload.go: a value-receiver method. It
calls `Columns` through the address of its local copy, so the cache update
made by that call is discarded and the receiver is returned unchanged. -/
def PayloadBasic.RowsSt (p : PayloadBasic) (order : List String) :
    GoResult (List (List JValue) × PayloadBasic) :=
  match p.ColumnsSt order with
  | .fatal m => .fatal m
  | .ok (columns, _) =>
    .ok ((p.events.getD []).map (fun event => columns.map (lookupGo event)),
         p)

/-- `PayloadAggregation.Columns` of src/payload.go: one column per
metadata content entry, named by its function, or by its alias when the
function is the literal string alias. -/
def PayloadAggregation.Columns (p : PayloadAggregation) : List String :=
  p.contents.map (fun content =>
    if content.function = "alias" then content.aliasName
    else content.function)

/-- `PayloadAggregation.Rows` of src/payload.go: always a single row,
obtained by unwrapping the results cells in order. -/
def PayloadAggregation.Rows (p : PayloadAggregation) :
    GoResult (List (List JValue)) :=
  match parseRow (p.results.getD []) with
  | .fatal m => .fatal m
  | .ok r => .ok [r]

/-- `PayloadFacet.Columns` of src/payload.go: the facet name followed by
one column per metadata content entry, with the same alias rule as the
aggregation payload. -/
def PayloadFacet.Columns (p : PayloadFacet) : List String :=
  p.facetName :: p.contents.map (fun content =>
    if content.function = "alias" then content.aliasName
    else content.function)

/-- The row built for one facet group: the group name followed by its
unwrapped cells. -/
def facetRows (groups : List FacetGroup) : GoResult (List (List JValue)) :=
  match groups with
  | [] => .ok []
  | g :: gs =>
    match parseRow g.results with
    | .fatal m => .fatal m
    | .ok vs =>
      match facetRows gs with
      | .fatal m => .fatal m
      | .ok rest => .ok ((JValue.str g.name :: vs) :: rest)

/-- `PayloadFacet.Rows` of src/payload.go: one row per facet group in
group order. -/
def PayloadFacet.Rows (p : PayloadFacet) : GoResult (List (List JValue)) :=
  facetRows p.facets

/-- The dynamic `Payload` interface value returned by the discriminator:
one of the three variants. The basic variant is held by pointer in Go
(`&basic` is returned), so its state updates persist. -/
inductive Payload where
  | basic (p : PayloadBasic) : Payload
  | aggregation (p : PayloadAggregation) : Payload
  | facet (p : PayloadFacet) : Payload
deriving Repr

/-- The error built when none of the three trial decodes accepts the
input: the three sub-parser failure causes and the offending document
(which the Go code pretty-prints into the message). -/
structure FormatError where
  basic : String
  aggregation : String
  facet : String
  data : JValue
deriving Repr

/-- The first trial of `unmarshalPayload`: decode as `PayloadBasic` and
require `Results[0].Events != nil`. -/
def basicTrial (v : JValue) : Except String PayloadBasic :=
  match decodeBasic v with
  | .error e => .error e
  | .ok basic =>
    if basic.events.isSome then .ok basic
    else .error "missing results[0].events field"

/-- The second trial of `unmarshalPayload`: decode as
`PayloadAggregation` and require `Results != nil`. -/
def aggregationTrial (v : JValue) : Except String PayloadAggregation :=
  match decodeAggregation v with
  | .error e => .error e
  | .ok aggregation =>
    if aggregation.results.isSome then .ok aggregation
    else .error "missing results field"

/-- `unmarshalPayload` of src/payload.go: try the basic shape, then the
aggregation shape, then the facet shape (which requires only a successful
decode); if all three fail, return the error carrying all three causes
and the input document. -/
def unmarshalPayload (v : JValue) : Except FormatError Payload :=
  match basicTrial v with
  | .ok basic => .ok (.basic basic)
  | .error basicErr =>
    match aggregationTrial v with
    | .ok aggregation => .ok (.aggregation aggregation)
    | .error aggregationErr =>
      match decodeFacet v with
      | .ok facet => .ok (.facet facet)
      | .error facetErr =>
        .error { basic := basicErr, aggregation := aggregationErr,
                 facet := facetErr, data := v }

/-- Dispatch `Columns()` through the `Payload` interface. Only the basic
variant is stateful (pointer receiver behind the interface); the
aggregation and facet variants are pure. -/
def Payload.ColumnsSt (pl : Payload) (order : List String) :
    GoResult (List String × Payload) :=
  match pl with
  | .basic b =>
    match b.ColumnsSt order with
    | .fatal m => .fatal m
    | .ok (cs, b') => .ok (cs, .basic b')
  | .aggregation a => .ok (a.Columns, pl)
  | .facet f => .ok (f.Columns, pl)

/-- Dispatch `Rows()` through the `Payload` interface. No variant changes
its receiver here: `PayloadBasic.Rows` has a value receiver. -/
def Payload.RowsSt (pl : Payload) (order : List String) :
    GoResult (List (List JValue) × Payload) :=
  match pl with
  | .basic b =>
    match b.RowsSt order with
    | .fatal m => .fatal m
    | .ok (rs, b') => .ok (rs, .basic b')
  | .aggregation a =>
    match a.Rows with
    | .fatal m => .fatal m
    | .ok rs => .ok (rs, pl)
  | .facet f =>
    match f.Rows with
    | .fatal m => .fatal m
    | .ok rs => .ok (rs, pl)

/-- `StaticColumn` of src/payload.go: a fixed (name, value) pair. -/
structure StaticColumn where
  name : String
  value : String
deriving Repr, DecidableEq

/-- `StaticColumnsPayload` of src/payload.go: wraps an inner payload and
suffixes it with the static columns. -/
structure StaticColumnsPayload where
  payload : Payload
  staticColumns : List StaticColumn
deriving Repr

/-- `StaticColumnsPayload.Columns`: the inner columns followed by the
static column names in declaration order. The inner payload is reached
through the interface, so a stateful inner `Columns` call persists. -/
def StaticColumnsPayload.ColumnsSt (p : StaticColumnsPayload)
    (order : List String) : GoResult (List String × StaticColumnsPayload) :=
  match p.payload.ColumnsSt order with
  | .fatal m => .fatal m
  | .ok (columns, inner) =>
    .ok (columns ++ p.staticColumns.map (fun column => column.name),
         { p with payload := inner })

/-- `StaticColumnsPayload.Rows`: for each static column in order, append
its value to every inner row (the Go double loop, outer over the static
columns). -/
def StaticColumnsPayload.RowsSt (p : StaticColumnsPayload)
    (order : List String) :
    GoResult (List (List JValue) × StaticColumnsPayload) :=
  match p.payload.RowsSt order with
  | .fatal m => .fatal m
  | .ok (rows, inner) =>
    .ok (p.staticColumns.foldl
           (fun rs column => rs.map (fun r => r ++ [JValue.str column.value]))
           rows,
         { p with payload := inner })

/-- The value of a well-formed (single-entry) cell: the value of its one
entry. Used to state what `parseCell` returns on well-formed cells. -/
def cellValue (cell : List (String × JValue)) : JValue :=
  (cell.headD ("", JValue.null)).2

/-- A decoded SELECT * basic payload with one event carrying the two keys
a and b, used to exhibit the interaction of the column cache with the
value-receiver `Rows`. -/
def pEx : PayloadBasic :=
  { cols := none,
    events := some [[("a", JValue.num 1), ("b", JValue.num 2)]],
    metadataColumns := none }

/-- A decoded facet payload whose single facet group carries two result
cells while the metadata lists no content entries. -/
def fEx : PayloadFacet :=
  { facets := [{ name := "a",
                 results := [[("x", JValue.num 1)], [("y", JValue.num 2)]] }],
    totalResult := [], unknownGroup := [], facetName := "", contents := [] }

theorem parseRow_ok_length (xs : List (List (String × JValue)))
    (r : List JValue) (h : parseRow xs = .ok r) : r.length = xs.length := by
  induction xs generalizing r with
  | nil =>
    simp only [parseRow] at h
    cases h
    rfl
  | cons c rest ih =>
    simp only [parseRow] at h
    cases hc : parseCell c with
    | fatal m => rw [hc] at h; cases h
    | ok v =>
      rw [hc] at h
      cases hr : parseRow rest with
      | fatal m => rw [hr] at h; cases h
      | ok vs =>
        rw [hr] at h
        cases h
        simp [ih vs hr]

theorem parseRow_singletons (xs : List (List (String × JValue)))
    (h : ∀ c ∈ xs, c.length = 1) : parseRow xs = .ok (xs.map cellValue) := by
  induction xs with
  | nil => simp [parseRow]
  | cons c rest ih =>
    have hc : c.length = 1 := h c (by simp)
    obtain ⟨a, rfl⟩ := List.length_eq_one.mp hc
    obtain ⟨k, v⟩ := a
    simp only [parseRow, parseCell, cellValue]
    rw [ih (fun x hx => h x (by simp [hx]))]
    simp [cellValue]

theorem facetRows_ok_length (gs : List FacetGroup)
    (rows : List (List JValue)) (h : facetRows gs = .ok rows) :
    List.Forall₂ (fun (row : List JValue) (g : FacetGroup) =>
      row.length = g.results.length + 1) rows gs := by
  induction gs generalizing rows with
  | nil =>
    simp only [facetRows] at h
    cases h
    exact List.Forall₂.nil
  | cons g rest ih =>
    simp only [facetRows] at h
    cases hg : parseRow g.results with
    | fatal m => rw [hg] at h; cases h
    | ok vs =>
      rw [hg] at h
      cases hr : facetRows rest with
      | fatal m => rw [hr] at h; cases h
      | ok rs =>
        rw [hr] at h
        cases h
        exact List.Forall₂.cons
          (by simp [parseRow_ok_length _ _ hg]) (ih rs hr)

theorem staticFold_map (statics : List StaticColumn)
    (rows : List (List JValue)) :
    statics.foldl
        (fun rs column => rs.map (fun r => r ++ [JValue.str column.value]))
        rows
      = rows.map (fun r => r ++ statics.map (fun c => JValue.str c.value)) := by
  induction statics generalizing rows with
  | nil => simp
  | cons c cs ih =>
    rw [List.foldl_cons, ih, List.map_map]
    refine List.map_congr_left (fun r _ => ?_)
    simp

theorem basic_columns_cache (b : PayloadBasic) (order : List String)
    (cols : List String) (b' : PayloadBasic)
    (h : b.ColumnsSt order = .ok (cols, b')) :
    b'.cols = some cols ∧
    ∀ order₂, b'.ColumnsSt order₂ = .ok (cols, b') := by
  unfold PayloadBasic.ColumnsSt at h
  cases hc : b.cols with
  | some cs =>
    rw [hc] at h
    cases h
    exact ⟨hc, fun order₂ => by simp [PayloadBasic.ColumnsSt, hc]⟩
  | none =>
    rw [hc] at h
    cases hm : b.metadataColumns with
    | some cs =>
      rw [hm] at h
      cases h
      exact ⟨rfl, fun order₂ => by simp [PayloadBasic.ColumnsSt]⟩
    | none =>
      rw [hm] at h
      rw [if_neg (by simp)] at h
      cases he : b.events.getD [] with
      | nil => rw [he] at h; cases h
      | cons e es =>
        rw [he] at h
        cases h
        exact ⟨rfl, fun order₂ => by simp [PayloadBasic.ColumnsSt]⟩

/-- C1 (counterexample): the document with no fields at all, which has no
results and no facets field, is NOT rejected by `unmarshalPayload` — the
facet trial requires only a successful decode, so the empty object is
returned as a facet payload rather than failing with a format error as
the claim states. -/
theorem c1_empty_object_is_facet :
    unmarshalPayload (JValue.obj []) =
      Except.ok (Payload.facet
        { facets := [], totalResult := [], unknownGroup := [],
          facetName := "", contents := [] }) := rfl

/-- C1 (amended): for every well-formed JSON input on which all three
trials fail — the basic trial (decode error or nil events), the
aggregation trial (decode error or nil results) and the facet decode
itself — `unmarshalPayload` returns no payload and fails with the format
error carrying all three sub-parser failure causes together with the
input document. -/
theorem c1_all_trials_fail_format_error (v : JValue) (be ae fe : String)
    (hb : basicTrial v = .error be)
    (ha : aggregationTrial v = .error ae)
    (hf : decodeFacet v = .error fe) :
    unmarshalPayload v =
      Except.error
        { basic := be, aggregation := ae, facet := fe, data := v } := by
  unfold unmarshalPayload
  rw [hb, ha, hf]

/-- C1 (witness): a top-level JSON array fails all three trial decodes and
yields the format error with all three causes. -/
theorem c1_all_trials_fail_format_error_witness :
    unmarshalPayload (JValue.arr []) =
      Except.error
        { basic := "json: cannot unmarshal value into Go struct PayloadBasic",
          aggregation :=
            "json: cannot unmarshal value into Go struct PayloadAggregation",
          facet := "json: cannot unmarshal value into Go struct PayloadFacet",
          data := JValue.arr [] } :=
  c1_all_trials_fail_format_error (JValue.arr []) _ _ _ rfl rfl rfl

/-- C3: every input whose decode into the basic shape succeeds with a
non-nil `results[0].events` (an empty event list is allowed) is returned
as the basic event payload, whether or not the explicit column metadata is
present: the basic trial is attempted first, before the aggregation and
facet trials. -/
theorem c3_basic_trial_first (v : JValue) (b : PayloadBasic)
    (hdec : decodeBasic v = .ok b) (hev : b.events.isSome = true) :
    unmarshalPayload v = Except.ok (Payload.basic b) := by
  unfold unmarshalPayload basicTrial
  rw [hdec]
  simp [hev]

/-- C3 (witness): a document with an empty (but present) event list and no
column metadata decodes as a basic event payload. -/
theorem c3_basic_trial_first_witness :
    unmarshalPayload
        (JValue.obj [("results", JValue.arr [JValue.obj
          [("events", JValue.arr [])]])]) =
      Except.ok (Payload.basic
        { cols := none, events := some [], metadataColumns := none }) :=
  c3_basic_trial_first _ _ rfl rfl

/-- C9: `parseCell` on a cell with exactly one entry returns that entry's
value (discarding the key); on any other entry count it terminates the
process via `log.Fatal` — an unrecoverable fatal exit, never a returned
value or recoverable error. -/
theorem c9_parse_cell (cell : List (String × JValue)) :
    (cell.length = 1 → parseCell cell = .ok (cellValue cell)) ∧
    (cell.length ≠ 1 → parseCell cell = .fatal fatalCellMsg) := by
  constructor
  · intro h
    obtain ⟨a, rfl⟩ := List.length_eq_one.mp h
    obtain ⟨k, v⟩ := a
    simp [parseCell, cellValue]
  · intro h
    simp [parseCell, h]

/-- C9 (witness): a one-entry cell unwraps to its value; the empty cell is
fatal. -/
theorem c9_parse_cell_witness :
    parseCell [("count", JValue.num 7)] = .ok (JValue.num 7) ∧
    parseCell [] = .fatal fatalCellMsg :=
  ⟨(c9_parse_cell [("count", JValue.num 7)]).1 rfl,
   (c9_parse_cell []).2 (by decide)⟩

/-- C10: a basic payload whose column metadata is absent and whose event
list is present but empty — a shape the discriminator accepts, since a
non-nil empty event list passes the basic trial — makes `Columns` panic
with an index-out-of-range error instead of returning an empty or nil
column list: the guard over `len(p.Results[0].Events) < 0` can never be
true, so the access to `Events[0]` is unprotected. -/
theorem c10_empty_events_columns_panics (p : PayloadBasic)
    (order : List String) (hc : p.cols = none)
    (hm : p.metadataColumns = none) (he : p.events = some []) :
    p.ColumnsSt order = .fatal indexOutOfRangeMsg ∧
    ¬ (((p.events.getD []).length : Int) < 0) ∧
    unmarshalPayload
        (JValue.obj [("results", JValue.arr [JValue.obj
          [("events", JValue.arr [])]])]) =
      Except.ok (Payload.basic
        { cols := none, events := some [], metadataColumns := none }) := by
  refine ⟨?_, ?_, rfl⟩
  · simp [PayloadBasic.ColumnsSt, hc, hm, he]
  · simp [he]

/-- C10 (witness): the concrete empty-events payload panics in
`Columns`. -/
theorem c10_empty_events_columns_panics_witness :
    PayloadBasic.ColumnsSt
        { cols := none, events := some [], metadataColumns := none } [] =
      .fatal indexOutOfRangeMsg ∧
    ¬ ((((({ cols := none, events := some [], metadataColumns := none } :
        PayloadBasic)).events.getD []).length : Int) < 0) ∧
    unmarshalPayload
        (JValue.obj [("results", JValue.arr [JValue.obj
          [("events", JValue.arr [])]])]) =
      Except.ok (Payload.basic
        { cols := none, events := some [], metadataColumns := none }) :=
  c10_empty_events_columns_panics _ [] rfl rfl rfl

theorem facetRows_singletons (gs : List FacetGroup)
    (h : ∀ g ∈ gs, ∀ c ∈ g.results, c.length = 1) :
    facetRows gs =
      .ok (gs.map (fun g => JValue.str g.name :: g.results.map cellValue)) := by
  induction gs with
  | nil => simp [facetRows]
  | cons g rest ih =>
    simp only [facetRows]
    rw [parseRow_singletons _ (h g (by simp)),
        ih (fun x hx => h x (by simp [hx]))]
    simp

/-- C5: a facet payload with N facet groups, all of whose cells are
well-formed single-entry maps, yields exactly N rows, one per facet group
in group order; each row starts with that group's name and continues with
the unwrapped aggregate scalars of that group. -/
theorem c5_facet_rows (p : PayloadFacet)
    (h : ∀ g ∈ p.facets, ∀ c ∈ g.results, c.length = 1) :
    p.Rows =
      .ok (p.facets.map (fun g =>
        JValue.str g.name :: g.results.map cellValue)) :=
  facetRows_singletons p.facets h

/-- C5 (witness): two facet groups with one well-formed cell each yield
two rows, each led by its group name. -/
theorem c5_facet_rows_witness :
    PayloadFacet.Rows
        { facets := [{ name := "a", results := [[("count", JValue.num 1)]] },
                     { name := "b", results := [[("count", JValue.num 2)]] }],
          totalResult := [], unknownGroup := [], facetName := "f",
          contents := [] } =
      .ok [[JValue.str "a", JValue.num 1], [JValue.str "b", JValue.num 2]] :=
  c5_facet_rows _ (by
    intro g hg c hc
    simp only [List.mem_cons, List.not_mem_nil, or_false] at hg
    rcases hg with h | h <;> subst h <;>
      simp_all)

/-- C6: an aggregation payload all of whose result cells are well-formed
single-entry maps yields exactly one row, whose cells are the unwrapped
scalar values of the results entries in order. -/
theorem c6_aggregation_single_row (p : PayloadAggregation)
    (h : ∀ c ∈ p.results.getD [], c.length = 1) :
    p.Rows = .ok [(p.results.getD []).map cellValue] := by
  unfold PayloadAggregation.Rows
  rw [parseRow_singletons _ h]

/-- C6 (witness): the fixture with two single-key cells and metadata
functions average and count yields the single row with the two unwrapped
values in function order. -/
theorem c6_aggregation_single_row_witness :
    PayloadAggregation.Rows
        { results := some [[("average", JValue.num 10)],
                           [("count", JValue.num 3)]],
          contents :=
            [{ function := "average", aliasName := "", contentsFunction := "",
               contentsAttr := "", attr := "duration" },
             { function := "count", aliasName := "", contentsFunction := "",
               contentsAttr := "", attr := "" }] } =
      .ok [[JValue.num 10, JValue.num 3]] :=
  c6_aggregation_single_row _ (by
    intro c hc
    simp only [Option.getD_some, List.mem_cons, List.not_mem_nil, or_false]
      at hc
    rcases hc with h | h <;> subst h <;> rfl)

/-- C7: for the aggregation payload each column name is the metadata
entry's aggregate function name, except that an entry whose function is
the literal string alias is named by its alias string instead; for the
facet payload the same list is preceded by the facet name as column 0. -/
theorem c7_alias_resolution (a : PayloadAggregation) (f : PayloadFacet)
    (i j : Nat) :
    a.Columns.length = a.contents.length ∧
    a.Columns[i]? = a.contents[i]?.map (fun content =>
      if content.function = "alias" then content.aliasName
      else content.function) ∧
    f.Columns.length = f.contents.length + 1 ∧
    f.Columns[0]? = some f.facetName ∧
    f.Columns[j + 1]? = f.contents[j]?.map (fun content =>
      if content.function = "alias" then content.aliasName
      else content.function) := by
  refine ⟨?_, ?_, ?_, ?_, ?_⟩ <;>
    simp [PayloadAggregation.Columns, PayloadFacet.Columns]

theorem facetRows_row_length (gs : List FacetGroup)
    (rows : List (List JValue)) (n : Nat) (h : facetRows gs = .ok rows)
    (hlen : ∀ g ∈ gs, g.results.length = n) :
    ∀ r ∈ rows, r.length = n + 1 := by
  induction gs generalizing rows with
  | nil =>
    simp only [facetRows] at h
    cases h
    simp
  | cons g rest ih =>
    simp only [facetRows] at h
    cases hg : parseRow g.results with
    | fatal m => rw [hg] at h; cases h
    | ok vs =>
      rw [hg] at h
      cases hr : facetRows rest with
      | fatal m => rw [hr] at h; cases h
      | ok rs =>
        rw [hr] at h
        cases h
        intro r hmem
        rcases List.mem_cons.mp hmem with h1 | h2
        · subst h1
          simp [parseRow_ok_length _ _ hg, hlen g (by simp)]
        · exact ih rs hr (fun x hx => hlen x (by simp [hx])) r h2

/-- C2 (counterexample): a decoded wire document can produce a facet
payload whose rows are wider than its columns: with one facet group
holding two result cells and no metadata content entries, the single row
has three cells while there is one column, so the row-width invariant
fails when a facet group's results count differs from the metadata
contents count. -/
theorem c2_facet_width_mismatch :
    unmarshalPayload
        (JValue.obj [("facets", JValue.arr [JValue.obj
          [("name", JValue.str "a"),
           ("results", JValue.arr [JValue.obj [("x", JValue.num 1)],
                                   JValue.obj [("y", JValue.num 2)]])]])]) =
      Except.ok (Payload.facet fEx) ∧
    fEx.Rows = .ok [[JValue.str "a", JValue.num 1, JValue.num 2]] ∧
    fEx.Columns = [""] ∧
    ¬ ([JValue.str "a", JValue.num 1, JValue.num 2].length
        = fEx.Columns.length) := by
  refine ⟨rfl, rfl, rfl, by decide⟩

/-- C2 (amended): every row is exactly as long as the column list for the
basic payload unconditionally (whenever the calls return), and for the
aggregation and facet payloads under the wire-format agreement that the
results count matches the metadata contents count (per facet group for the
facet payload); without that agreement the invariant can fail. -/
theorem c2_row_width (pb : PayloadBasic) (order : List String)
    (colsB : List String) (pbc : PayloadBasic)
    (hbc : pb.ColumnsSt order = .ok (colsB, pbc))
    (rowsB : List (List JValue)) (pbr : PayloadBasic)
    (hbr : pb.RowsSt order = .ok (rowsB, pbr))
    (pa : PayloadAggregation)
    (hal : (pa.results.getD []).length = pa.contents.length)
    (rowsA : List (List JValue)) (har : pa.Rows = .ok rowsA)
    (pf : PayloadFacet)
    (hfl : ∀ g ∈ pf.facets, g.results.length = pf.contents.length)
    (rowsF : List (List JValue)) (hfr : pf.Rows = .ok rowsF) :
    (∀ r ∈ rowsB, r.length = colsB.length) ∧
    (∀ r ∈ rowsA, r.length = pa.Columns.length) ∧
    (∀ r ∈ rowsF, r.length = pf.Columns.length) := by
  refine ⟨?_, ?_, ?_⟩
  · unfold PayloadBasic.RowsSt at hbr
    rw [hbc] at hbr
    simp only [GoResult.ok.injEq, Prod.mk.injEq] at hbr
    obtain ⟨h1, _⟩ := hbr
    intro r hr
    rw [← h1] at hr
    obtain ⟨ev, _, rfl⟩ := List.mem_map.mp hr
    simp
  · unfold PayloadAggregation.Rows at har
    cases hp : parseRow (pa.results.getD []) with
    | fatal m => rw [hp] at har; cases har
    | ok rrow =>
      rw [hp] at har
      cases har
      intro r hr
      rw [List.mem_singleton] at hr
      subst hr
      rw [parseRow_ok_length _ _ hp, hal]
      simp [PayloadAggregation.Columns]
  · intro r hr
    have hwidth := facetRows_row_length pf.facets rowsF pf.contents.length
      hfr hfl r hr
    simp [PayloadFacet.Columns, hwidth]

/-- C2 (witness): one concrete payload per variant, with matching counts
for the aggregation and facet variants, all satisfying the row-width
invariant. -/
theorem c2_row_width_witness :
    (∀ r ∈ [[JValue.num 1]], r.length = (["a"] : List String).length) ∧
    (∀ r ∈ [[JValue.num 2]],
      r.length = (PayloadAggregation.Columns
        { results := some [[("count", JValue.num 2)]],
          contents := [{ function := "count", aliasName := "",
                         contentsFunction := "", contentsAttr := "",
                         attr := "" }] }).length) ∧
    (∀ r ∈ [[JValue.str "x", JValue.num 3]],
      r.length = (PayloadFacet.Columns
        { facets := [{ name := "x", results := [[("count", JValue.num 3)]] }],
          totalResult := [], unknownGroup := [], facetName := "f",
          contents := [{ function := "count", aliasName := "",
                         contentsFunction := "", contentsAttr := "",
                         attr := "" }] }).length) :=
  c2_row_width
    { cols := none, events := some [[("a", JValue.num 1)]],
      metadataColumns := some ["a"] }
    [] ["a"]
    { cols := some ["a"], events := some [[("a", JValue.num 1)]],
      metadataColumns := some ["a"] }
    rfl
    [[JValue.num 1]]
    { cols := none, events := some [[("a", JValue.num 1)]],
      metadataColumns := some ["a"] }
    rfl
    { results := some [[("count", JValue.num 2)]],
      contents := [{ function := "count", aliasName := "",
                     contentsFunction := "", contentsAttr := "",
                     attr := "" }] }
    rfl
    [[JValue.num 2]]
    rfl
    { facets := [{ name := "x", results := [[("count", JValue.num 3)]] }],
      totalResult := [], unknownGroup := [], facetName := "f",
      contents := [{ function := "count", aliasName := "",
                     contentsFunction := "", contentsAttr := "",
                     attr := "" }] }
    (by

      intro g hg
      rw [List.mem_singleton] at hg
      subst hg
      rfl)
    [[JValue.str "x", JValue.num 3]]
    rfl

/-- C4 (counterexample): `Rows` has a value receiver, so the column
resolution it performs is cached only on a copy and discarded: on the
SELECT * instance `pEx`, a `Rows()` call whose map iteration order is
a, b observes the column sequence a, b (its row pairs the value of a
first) and leaves the instance cache empty, after which a `Columns()`
call whose iteration order is b, a observes the different sequence b, a —
both orders being permutations of the first event's keys. The two
accesses on the same instance therefore do not observe identical column
sequences. -/
theorem c4_rows_does_not_cache :
    pEx.RowsSt ["a", "b"] =
      .ok ([[JValue.num 1, JValue.num 2]], pEx) ∧
    pEx.ColumnsSt ["a", "b"] =
      .ok (["a", "b"], { pEx with cols := some ["a", "b"] }) ∧
    pEx.ColumnsSt ["b", "a"] =
      .ok (["b", "a"], { pEx with cols := some ["b", "a"] }) ∧
    List.Perm ["a", "b"]
      ([("a", JValue.num 1), ("b", JValue.num 2)].map Prod.fst) ∧
    List.Perm ["b", "a"]
      ([("a", JValue.num 1), ("b", JValue.num 2)].map Prod.fst) ∧
    (["a", "b"] : List String) ≠ ["b", "a"] := by
  refine ⟨rfl, rfl, rfl, by decide, by decide, by decide⟩

/-- C4 (amended): the derived column sequence is cached by `Columns`
itself: once `Columns()` has been called on a SELECT * instance, repeated
`Columns()` calls and the column resolution inside `Rows()` all observe
the identical cached sequence, whatever iteration order the later calls
would use. However `Rows()` has a value receiver and does not populate
the cache of the instance itself, so a `Rows()` call made before any
`Columns()` call may observe a different sequence than a later
`Columns()` (see the counterexample). -/
theorem c4_columns_cached_after_first_call (p : PayloadBasic)
    (order₁ order₂ : List String) (e : List (String × JValue))
    (es : List (List (String × JValue)))
    (hc : p.cols = none) (hm : p.metadataColumns = none)
    (he : p.events = some (e :: es))
    (h₁ : order₁.Perm (e.map Prod.fst)) (h₂ : order₂.Perm (e.map Prod.fst)) :
    p.ColumnsSt order₁ = .ok (order₁, { p with cols := some order₁ }) ∧
    PayloadBasic.ColumnsSt { p with cols := some order₁ } order₂ =
      .ok (order₁, { p with cols := some order₁ }) ∧
    PayloadBasic.RowsSt { p with cols := some order₁ } order₂ =
      .ok ((e :: es).map (fun event => order₁.map (lookupGo event)),
           { p with cols := some order₁ }) := by
  refine ⟨?_, ?_, ?_⟩
  · unfold PayloadBasic.ColumnsSt
    rw [hc, hm, he]
    simp
    intro habs
    exact absurd habs (by omega)
  · simp [PayloadBasic.ColumnsSt]
  · unfold PayloadBasic.RowsSt PayloadBasic.ColumnsSt
    simp [he]

/-- C4 (witness): on the concrete SELECT * instance, after a first
`Columns()` call with iteration order a, b, both a repeated `Columns()`
and `Rows()` with iteration order b, a observe the cached sequence
a, b. -/
theorem c4_columns_cached_after_first_call_witness :
    pEx.ColumnsSt ["a", "b"] =
      .ok (["a", "b"], { pEx with cols := some ["a", "b"] }) ∧
    PayloadBasic.ColumnsSt { pEx with cols := some ["a", "b"] } ["b", "a"] =
      .ok (["a", "b"], { pEx with cols := some ["a", "b"] }) ∧
    PayloadBasic.RowsSt { pEx with cols := some ["a", "b"] } ["b", "a"] =
      .ok (([[("a", JValue.num 1), ("b", JValue.num 2)]].map
              (fun event => ["a", "b"].map (lookupGo event))),
           { pEx with cols := some ["a", "b"] }) :=
  c4_columns_cached_after_first_call pEx ["a", "b"] ["b", "a"]
    [("a", JValue.num 1), ("b", JValue.num 2)] []
    rfl rfl rfl (by decide) (by decide)

/-- C8: decorating an inner payload with static columns yields the inner
columns followed by the static names in declaration order, and the inner
rows each suffixed with the static values in the same order; the `Rows`
query leaves the inner payload's state untouched, and after the decorated
`Columns` query the inner payload queried independently still answers
with the very same column sequence, whatever iteration order a later call
would use. -/
theorem c8_static_columns_decorator (pl : Payload)
    (statics : List StaticColumn) (order : List String)
    (cols : List String) (pl₁ : Payload)
    (hc : pl.ColumnsSt order = .ok (cols, pl₁))
    (rows : List (List JValue)) (pl₂ : Payload)
    (hr : pl.RowsSt order = .ok (rows, pl₂)) :
    StaticColumnsPayload.ColumnsSt ⟨pl, statics⟩ order =
      .ok (cols ++ statics.map (fun column => column.name),
           ⟨pl₁, statics⟩) ∧
    StaticColumnsPayload.RowsSt ⟨pl, statics⟩ order =
      .ok (rows.map (fun r => r ++ statics.map (fun c => JValue.str c.value)),
           ⟨pl₂, statics⟩) ∧
    pl₂ = pl ∧
    (∀ order₂, pl₁.ColumnsSt order₂ = .ok (cols, pl₁)) := by
  refine ⟨?_, ?_, ?_, ?_⟩
  · simp only [StaticColumnsPayload.ColumnsSt, hc]
  · simp only [StaticColumnsPayload.RowsSt, hr, staticFold_map]
  · cases pl with
    | basic b =>
      simp only [Payload.RowsSt] at hr
      cases hbr : b.RowsSt order with
      | fatal m => rw [hbr] at hr; cases hr
      | ok pair =>
        rw [hbr] at hr
        obtain ⟨rs, b'⟩ := pair
        simp only [GoResult.ok.injEq, Prod.mk.injEq] at hr
        obtain ⟨_, h2⟩ := hr
        unfold PayloadBasic.RowsSt at hbr
        cases hbc : b.ColumnsSt order with
        | fatal m => rw [hbc] at hbr; cases hbr
        | ok cpair =>
          rw [hbc] at hbr
          simp only [GoResult.ok.injEq, Prod.mk.injEq] at hbr
          rw [← h2, ← hbr.2]
    | aggregation a =>
      simp only [Payload.RowsSt] at hr
      cases ha : a.Rows with
      | fatal m => rw [ha] at hr; cases hr
      | ok rs =>
        rw [ha] at hr
        simp only [GoResult.ok.injEq, Prod.mk.injEq] at hr
        exact hr.2.symm
    | facet f =>
      simp only [Payload.RowsSt] at hr
      cases hf : f.Rows with
      | fatal m => rw [hf] at hr; cases hr
      | ok rs =>
        rw [hf] at hr
        simp only [GoResult.ok.injEq, Prod.mk.injEq] at hr
        exact hr.2.symm
  · intro order₂
    cases pl with
    | basic b =>
      simp only [Payload.ColumnsSt] at hc
      cases hbc : b.ColumnsSt order with
      | fatal m => rw [hbc] at hc; cases hc
      | ok cpair =>
        rw [hbc] at hc
        obtain ⟨cs, b'⟩ := cpair
        simp only [GoResult.ok.injEq, Prod.mk.injEq] at hc
        obtain ⟨hcs, hb'⟩ := hc
        subst hcs
        have hcache := (basic_columns_cache b order cs b' hbc).2 order₂
        rw [← hb']
        simp only [Payload.ColumnsSt, hcache]
    | aggregation a =>
      simp only [Payload.ColumnsSt] at hc
      simp only [GoResult.ok.injEq, Prod.mk.injEq] at hc
      obtain ⟨hcs, hpl⟩ := hc
      rw [← hpl, ← hcs]
      rfl
    | facet f =>
      simp only [Payload.ColumnsSt] at hc
      simp only [GoResult.ok.injEq, Prod.mk.injEq] at hc
      obtain ⟨hcs, hpl⟩ := hc
      rw [← hpl, ← hcs]
      rfl

/-- C8 (witness): the spec fixture — inner columns x, one inner row with
the single value 1, one static column env with value prod — yields
columns x, env and the single row 1, prod, with the inner payload
unchanged and stable afterwards. -/
theorem c8_static_columns_decorator_witness :
    StaticColumnsPayload.ColumnsSt
        ⟨Payload.aggregation
          { results := some [[("x", JValue.num 1)]],
            contents := [{ function := "x", aliasName := "",
                           contentsFunction := "", contentsAttr := "",
                           attr := "" }] },
         [{ name := "env", value := "prod" }]⟩ [] =
      .ok (["x"] ++ [{ name := "env", value := "prod" }].map
              (fun (column : StaticColumn) => column.name),
           ⟨Payload.aggregation
             { results := some [[("x", JValue.num 1)]],
               contents := [{ function := "x", aliasName := "",
                              contentsFunction := "", contentsAttr := "",
                              attr := "" }] },
            [{ name := "env", value := "prod" }]⟩) ∧
    StaticColumnsPayload.RowsSt
        ⟨Payload.aggregation
          { results := some [[("x", JValue.num 1)]],
            contents := [{ function := "x", aliasName := "",
                           contentsFunction := "", contentsAttr := "",
                           attr := "" }] },
         [{ name := "env", value := "prod" }]⟩ [] =
      .ok ([[JValue.num 1]].map
             (fun r => r ++ [{ name := "env", value := "prod" }].map
               (fun (c : StaticColumn) => JValue.str c.value)),
           ⟨Payload.aggregation
             { results := some [[("x", JValue.num 1)]],
               contents := [{ function := "x", aliasName := "",
                              contentsFunction := "", contentsAttr := "",
                              attr := "" }] },
            [{ name := "env", value := "prod" }]⟩) ∧
    Payload.aggregation
        { results := some [[("x", JValue.num 1)]],
          contents := [{ function := "x", aliasName := "",
                         contentsFunction := "", contentsAttr := "",
                         attr := "" }] } =
      Payload.aggregation
        { results := some [[("x", JValue.num 1)]],
          contents := [{ function := "x", aliasName := "",
                         contentsFunction := "", contentsAttr := "",
                         attr := "" }] } ∧
    (∀ order₂, Payload.ColumnsSt
        (Payload.aggregation
          { results := some [[("x", JValue.num 1)]],
            contents := [{ function := "x", aliasName := "",
                           contentsFunction := "", contentsAttr := "",
                           attr := "" }] }) order₂ =
      .ok (["x"],
           Payload.aggregation
             { results := some [[("x", JValue.num 1)]],
               contents := [{ function := "x", aliasName := "",
                              contentsFunction := "", contentsAttr := "",
                              attr := "" }] })) :=
  c8_static_columns_decorator
    (Payload.aggregation
      { results := some [[("x", JValue.num 1)]],
        contents := [{ function := "x", aliasName := "",
                       contentsFunction := "", contentsAttr := "",
                       attr := "" }] })
    [{ name := "env", value := "prod" }] []
    ["x"]
    (Payload.aggregation
      { results := some [[("x", JValue.num 1)]],
        contents := [{ function := "x", aliasName := "",
                       contentsFunction := "", contentsAttr := "",
                       attr := "" }] })
    rfl
    [[JValue.num 1]]
    (Payload.aggregation
      { results := some [[("x", JValue.num 1)]],
        contents := [{ function := "x", aliasName := "",
                       contentsFunction := "", contentsAttr := "",
                       attr := "" }] })
    rfl
